import Mathlib

/-!
Shallow embedding of the persistence and lazy-query core of the
`sistema-gestor-tareas` repository (`src/services/persistencia.py` and
`src/utils/generadores.py`), with theorems settling the frozen claims
about its specification.

File-system effects are embedded as explicit state: a collection file is a
`FileState`, a directory listing is a list of names (with content or
modification time where the code reads them), and Python exceptions become
`Except` results or explicit outcome values where the code catches them.
-/

namespace GestorTareas

/-- Python exceptions that the persistence layer raises to its caller. -/
inductive PyErr where
  | valueError
  | ioError
deriving DecidableEq

/-- The state of one collection file on disk, as the load path observes it:
absent (`FileNotFoundError` on open), present but unparseable
(`json.JSONDecodeError` / `pickle.UnpicklingError`), or present with
decodable content. -/
inductive FileState (α : Type) where
  | missing
  | corrupt
  | ok (data : α)
deriving DecidableEq

/-- `PersistenciaJSON.cargar_datos`: opens the file and `json.load`s it;
`FileNotFoundError` is caught and `None` returned, `json.JSONDecodeError`
is caught and `None` returned, `IOError` is caught and `None` returned,
otherwise the decoded data is returned. -/
def PersistenciaJSON.cargar_datos {α : Type} (f : FileState α) : Option α :=
  match f with
  | .missing => none
  | .corrupt => none
  | .ok d => some d

/-- `PersistenciaBinaria.cargar_datos`: opens the file and `pickle.load`s
it; `FileNotFoundError` → `None`, `pickle.UnpicklingError` → `None`,
`IOError` → `None`, otherwise the decoded data. -/
def PersistenciaBinaria.cargar_datos {α : Type} (f : FileState α) : Option α :=
  match f with
  | .missing => none
  | .corrupt => none
  | .ok d => some d

/-- Outcome of `json.dump` streaming into the (already truncated) file
opened with mode `'w'`: either the whole serialized text is written, or
serialization fails (`TypeError`/`ValueError`) after some text has
already been emitted to the handle. -/
inductive DumpOutcome where
  | ok (text : String)
  | failAfter (written : String)
deriving DecidableEq

/-- `PersistenciaJSON.guardar_datos` acting on the collection file.
`open(ruta, 'w')` truncates the file before `json.dump` streams into it;
on a serialization failure the handler re-raises `ValueError`, and the
text emitted before the failure is what remains in the file.  Returns the
Python result (`True` or a raised exception) paired with the file content
after the call. -/
def PersistenciaJSON.guardar_datos (dump : DumpOutcome) (_fileBefore : Option String) :
    Except PyErr Bool × Option String :=
  match dump with
  | .ok t => (.ok true, some t)
  | .failAfter w => (.error .valueError, some w)

/-- Outcome of `pickle.dump` into the file opened with mode `'wb'`. -/
inductive PickleOutcome where
  | ok (bytes : String)
  | failAfter (written : String)
deriving DecidableEq

/-- `PersistenciaBinaria.guardar_datos` acting on the collection file.
`pickle.PicklingError` is caught and the function returns `False`;
success returns `True`.  Paired with the file content after the call. -/
def PersistenciaBinaria.guardar_datos (dump : PickleOutcome) (_fileBefore : Option String) :
    Except PyErr Bool × Option String :=
  match dump with
  | .ok b => (.ok true, some b)
  | .failAfter w => (.ok false, some w)

/-! ### Backup pruning (`GestorPersistencia.limpiar_backups_antiguos`) -/

/-- One entry of the backups directory listing: its name, its modification
time (seconds), and whether `os.remove` succeeds on it. -/
structure BackupFile where
  nombre : String
  mtime : Int
  removable : Bool
deriving DecidableEq

/-- The `for archivo in archivos_backup` loop of
`limpiar_backups_antiguos`, threading the count of removed files.  A file
older than the cutoff is removed and counted; if `os.remove` raises, the
exception escapes the loop to the surrounding `except`, which returns 0 —
files not yet visited stay in the directory.  Returns the Python return
value paired with the directory contents after the call. -/
def limpiarGo (fechaLimite : Int) : List BackupFile → Nat → Nat × List BackupFile
  | [], n => (n, [])
  | f :: resto, n =>
    if f.mtime < fechaLimite then
      if f.removable then
        limpiarGo fechaLimite resto (n + 1)
      else
        (0, f :: resto)
    else
      let r := limpiarGo fechaLimite resto n
      (r.1, f :: r.2)

/-- `GestorPersistencia.limpiar_backups_antiguos` over the listing of the
backups directory, with `fecha_limite = now - dias_antiguedad` already
computed as an instant. -/
def GestorPersistencia.limpiar_backups_antiguos
    (archivos : List BackupFile) (fechaLimite : Int) : Nat × List BackupFile :=
  limpiarGo fechaLimite archivos 0

/-! ### Backup paths (`GestorArchivos.obtener_ruta_backup`) -/

/-- `os.path.join` for two components. -/
def osPathJoin (a b : String) : String := a ++ "/" ++ b

/-- The backups directory of the default layout (`data/backups`). -/
def directorioBackups : String := osPathJoin "data" "backups"

/-- A wall-clock instant as `datetime.now()` exposes it. -/
structure FechaHora where
  year : Nat
  month : Nat
  day : Nat
  hour : Nat
  minute : Nat
  second : Nat

/-- Zero-padding to two digits, as `%m`, `%d`, `%H`, `%M`, `%S` render. -/
def pad2 (n : Nat) : String := if n < 10 then "0" ++ toString n else toString n

/-- `datetime.now().strftime("%Y%m%d_%H%M%S")` — the one-second-granularity
timestamp used for backup names (years in this system are 4-digit). -/
def strftimeTimestamp (t : FechaHora) : String :=
  toString t.year ++ pad2 t.month ++ pad2 t.day ++ "_" ++
    pad2 t.hour ++ pad2 t.minute ++ pad2 t.second

/-- `GestorArchivos.obtener_ruta_backup`: joins the backups directory with
`f"{nombre_archivo}_{timestamp}"`. -/
def GestorArchivos.obtener_ruta_backup (nombreArchivo : String) (ahora : FechaHora) : String :=
  osPathJoin directorioBackups (nombreArchivo ++ "_" ++ strftimeTimestamp ahora)

/-- Destination path of `PersistenciaJSON._crear_backup`: it calls
`obtener_ruta_backup(f"{nombre_base}.json")`. -/
def PersistenciaJSON.crearBackupRuta (nombreBase : String) (ahora : FechaHora) : String :=
  GestorArchivos.obtener_ruta_backup (nombreBase ++ ".json") ahora

/-- Destination path of `PersistenciaBinaria._crear_backup`: it calls
`obtener_ruta_backup(f"{nombre_base}.pkl")`. -/
def PersistenciaBinaria.crearBackupRuta (nombreBase : String) (ahora : FechaHora) : String :=
  GestorArchivos.obtener_ruta_backup (nombreBase ++ ".pkl") ahora

/-- The backup name form the specification describes:
`{collection}_{YYYYMMDD_HHMMSS}.{ext}`, the extension last.  (Spec-side
definition, for comparison against the code-side path above.) -/
def backupNameSpec (nombreBase ext : String) (ahora : FechaHora) : String :=
  osPathJoin directorioBackups (nombreBase ++ "_" ++ strftimeTimestamp ahora ++ "." ++ ext)

/-! ### Facade state (`GestorPersistencia.crear_backup`, `sincronizar_formatos`,
`obtener_estadisticas_almacenamiento`)

The three data directories are modelled as listings; a JSON or binary file
carries its decoded record sequence (records are opaque, here `Nat`). -/

/-- The data tree: `data/json`, `data/binarios`, `data/backups`. -/
structure AlmacenFS where
  json : List (String × List Nat)
  binario : List (String × List Nat)
  backups : List String
deriving DecidableEq

/-- Reading one file of a directory listing by name (`open` + decode). -/
def buscarArchivo (dir : List (String × List Nat)) (nombre : String) : Option (List Nat) :=
  (dir.find? fun p => p.1 == nombre).map Prod.snd

/-- Writing one file into a directory listing: replaces the content when
the name already exists, otherwise the file is created. -/
def escribirArchivo (dir : List (String × List Nat)) (nombre : String)
    (datos : List Nat) : List (String × List Nat) :=
  if dir.any fun p => p.1 == nombre then
    dir.map fun p => if p.1 == nombre then (nombre, datos) else p
  else
    dir ++ [(nombre, datos)]

/-- Python truthiness of an `Optional[List]`: `None` and `[]` are falsy. -/
def esTruthy : Option (List Nat) → Bool
  | none => false
  | some l => !l.isEmpty

/-- One collection step of `GestorPersistencia.crear_backup`: load
`archivo` from the JSON store and, when truthy (present and nonempty),
save its data via `PersistenciaJSON.guardar_datos` under `destino` — a
path in the **JSON** directory (`obtener_ruta_json` appends `.json`). -/
def guardarRespaldoJson (s : AlmacenFS) (archivo destino : String) : AlmacenFS :=
  match buscarArchivo s.json archivo with
  | some l =>
    if l.isEmpty then s
    else { s with json := escribirArchivo s.json destino l }
  | none => s

/-- `GestorPersistencia.crear_backup`: performs the `usuarios` step, then
the `tareas` step, each writing `f"{nombre}_backup_{timestamp}"` into the
JSON directory; with no I/O failure each partial result is `True`
(trivially so when there is no data to back up), so it returns `True`. -/
def GestorPersistencia.crear_backup (ts : String) (s : AlmacenFS) : Bool × AlmacenFS :=
  (true,
    guardarRespaldoJson
      (guardarRespaldoJson s "usuarios.json" ("usuarios_backup_" ++ ts ++ ".json"))
      "tareas.json" ("tareas_backup_" ++ ts ++ ".json"))

/-- One collection step of `GestorPersistencia.sincronizar_formatos`:
load `archivo` from the JSON store and, when truthy, save its data via
`PersistenciaBinaria.guardar_datos` under `destino` — a path in the
binary directory (`obtener_ruta_binario` appends `.pkl`).  That save is
made with the default `crear_backup=True`, so when the target file
already exists (`os.path.exists`), `_crear_backup` first copies it into
the backups directory under `f"{destino}_{timestamp}"`
(`obtener_ruta_backup`), and only then the target is overwritten.  The
backup copy's I/O errors are caught and ignored; I/O failures are not
modelled, so the copy succeeds whenever the target exists. -/
def guardarSync (ts : String) (s : AlmacenFS) (archivo destino : String) : AlmacenFS :=
  match buscarArchivo s.json archivo with
  | some l =>
    if l.isEmpty then s
    else if (buscarArchivo s.binario destino).isSome then
      { s with binario := escribirArchivo s.binario destino l,
               backups := s.backups ++ [destino ++ "_" ++ ts] }
    else
      { s with binario := escribirArchivo s.binario destino l }
  | none => s

/-- `GestorPersistencia.sincronizar_formatos` at the instant whose
timestamp renders as `ts`: copies `usuarios` and then `tareas` from the
JSON store into the binary store under `f"{nombre}_sync"`, each save
attempting a pre-overwrite backup of an existing target.  Nothing is
written to the JSON store. -/
def GestorPersistencia.sincronizar_formatos (ts : String) (s : AlmacenFS) :
    Bool × AlmacenFS :=
  (true,
    guardarSync ts (guardarSync ts s "usuarios.json" "usuarios_sync.pkl")
      "tareas.json" "tareas_sync.pkl")

/-- `str.endswith(ext)`, used by `GestorArchivos.listar_archivos`. -/
def tieneExtension (nombre ext : String) : Bool :=
  ext.data.isSuffixOf nombre.data

/-- The counting fields of
`GestorPersistencia.obtener_estadisticas_almacenamiento`:
`archivos_json` and `archivos_binarios` come from `listar_archivos`
(which filters the listing by extension), `backups_totales` is
`len(os.listdir(directorio_backups))`. -/
structure Estadisticas where
  archivosJson : Nat
  archivosBinarios : Nat
  backupsTotales : Nat
deriving DecidableEq

/-- `GestorPersistencia.obtener_estadisticas_almacenamiento` (file-count
fields). -/
def GestorPersistencia.obtener_estadisticas_almacenamiento (s : AlmacenFS) : Estadisticas :=
  { archivosJson := (s.json.filter fun p => tieneExtension p.1 ".json").length
    archivosBinarios := (s.binario.filter fun p => tieneExtension p.1 ".pkl").length
    backupsTotales := s.backups.length }

/-! ### Lazy query engine (`src/utils/generadores.py`) -/

/-- `models.tarea.EstadoTarea`. -/
inductive EstadoTarea where
  | pendiente
  | en_progreso
  | completada
deriving DecidableEq

/-- The record yielded per window by `generador_estadisticas_por_lote`
(percentages computed with exact rational arithmetic). -/
structure EstadisticasLote where
  loteNumero : Nat
  rangoIndices : Nat × Nat
  totalTareas : Nat
  pendientes : Nat
  enProgreso : Nat
  completadas : Nat
  porcentajeCompletadas : ℚ
deriving DecidableEq

/-- The dictionary built for the window starting at index `i` of a list of
length `len`, from the slice `lote = tareas[i : i + tam]`. -/
def estadisticasLote (i tam len : Nat) (lote : List EstadoTarea) : EstadisticasLote :=
  { loteNumero := i / tam + 1
    rangoIndices := (i, min (i + tam - 1) (len - 1))
    totalTareas := lote.length
    pendientes := (lote.filter fun t => t == .pendiente).length
    enProgreso := (lote.filter fun t => t == .en_progreso).length
    completadas := (lote.filter fun t => t == .completada).length
    porcentajeCompletadas :=
      if 0 < lote.length then
        ((lote.filter fun t => t == .completada).length : ℚ) / (lote.length : ℚ) * 100
      else 0 }

/-- Consecutive slices `l[0 : tam], l[tam : 2*tam], …`, i.e. the windows
visited by `for i in range(0, len(tareas), tamaño_lote)`.  Structural on a
fuel bounded by the list length (each step consumes at least one element
when `tam ≥ 1`). -/
def lotesAux {α : Type} (tam : Nat) : Nat → List α → List (List α)
  | 0, _ => []
  | _, [] => []
  | fuel + 1, l => l.take tam :: lotesAux tam fuel (l.drop tam)

/-- The window list of `generador_estadisticas_por_lote` (empty when
`tam = 0`, where Python's `range` would raise). -/
def lotes {α : Type} (tam : Nat) (l : List α) : List (List α) :=
  if tam = 0 then [] else lotesAux tam l.length l

/-- `generador_estadisticas_por_lote`, fully evaluated: one statistics
record per window, in window order. -/
def generador_estadisticas_por_lote (tareas : List EstadoTarea) (tam : Nat) :
    List EstadisticasLote :=
  (lotes tam tareas).enum.map fun p => estadisticasLote (p.1 * tam) tam tareas.length p.2

/-- `filtro_compuesto(*filtros)`: the returned `filtro_combinado` applies
`all(filtro(item) for filtro in filtros)`. -/
def filtro_compuesto {α : Type} (filtros : List (α → Bool)) : α → Bool :=
  fun item => filtros.all fun filtro => filtro item

/-! ### `IteradorTareas` -/

/-- `IteradorTareas`: the wrapped list, the optional filter, and the
cursor `self.indice`. -/
structure IteradorTareas (α : Type) where
  tareas : List α
  filtro : Option (α → Bool)
  indice : Nat

/-- `self.filtro is None or self.filtro(tarea)`. -/
def aplicaFiltro {α : Type} (filtro : Option (α → Bool)) (t : α) : Bool :=
  match filtro with
  | none => true
  | some f => f t

/-- The `while self.indice < len(self.tareas)` loop of
`IteradorTareas.__next__`, reading the elements still ahead of the cursor
(`resto = tareas[indice:]`) and threading the cursor value: each visited
element advances the cursor by one; a match is returned; running out of
elements raises `StopIteration` (modelled as `none`). -/
def buscarDesde {α : Type} (filtro : Option (α → Bool)) :
    List α → Nat → Option α × Nat
  | [], i => (none, i)
  | t :: resto, i =>
    if aplicaFiltro filtro t then (some t, i + 1)
    else buscarDesde filtro resto (i + 1)

/-- `IteradorTareas.__next__`: `some` of the yielded element or `none` for
`StopIteration`, paired with the iterator afterwards. -/
def IteradorTareas.next {α : Type} (it : IteradorTareas α) :
    Option α × IteradorTareas α :=
  let r := buscarDesde it.filtro (it.tareas.drop it.indice) it.indice
  (r.1, { it with indice := r.2 })

/-! ## Theorems settling the claims -/

/-- C1 counterexample: on both codecs, loading a missing file and loading a
file whose bytes fail to parse return the **same** value (`None`), so the
two outcomes are not distinguishable, contrary to the claim. -/
theorem C1_counterexample :
    PersistenciaJSON.cargar_datos (FileState.missing : FileState (List Nat)) =
      PersistenciaJSON.cargar_datos (FileState.corrupt : FileState (List Nat)) ∧
    PersistenciaBinaria.cargar_datos (FileState.missing : FileState (List Nat)) =
      PersistenciaBinaria.cargar_datos (FileState.corrupt : FileState (List Nat)) :=
  ⟨rfl, rfl⟩

/-- C1 amended: for every collection load (JSON or binary), a missing file
never raises and yields `None`; stored bytes that fail to parse also
yield `None` — the same value as "no data", so the two outcomes are not
distinguishable by the result; a successful parse returns the data. -/
theorem C1_amended (α : Type) (d : α) :
    PersistenciaJSON.cargar_datos (FileState.missing : FileState α) = none ∧
    PersistenciaJSON.cargar_datos (FileState.corrupt : FileState α) = none ∧
    PersistenciaJSON.cargar_datos (FileState.ok d) = some d ∧
    PersistenciaBinaria.cargar_datos (FileState.missing : FileState α) = none ∧
    PersistenciaBinaria.cargar_datos (FileState.corrupt : FileState α) = none ∧
    PersistenciaBinaria.cargar_datos (FileState.ok d) = some d :=
  ⟨rfl, rfl, rfl, rfl, rfl, rfl⟩

/-- C2 counterexample: a binary save whose value cannot be pickled returns
the failure value `False` instead of raising; and a JSON save whose
serialization fails mid-stream leaves the collection file changed (the
file is truncated and partially rewritten before the error surfaces). -/
theorem C2_counterexample :
    (PersistenciaBinaria.guardar_datos (PickleOutcome.failAfter "") (some "old")).1 =
      Except.ok false ∧
    (PersistenciaJSON.guardar_datos (DumpOutcome.failAfter "[1, ") (some "old")).2 ≠
      some "old" :=
  ⟨rfl, by decide⟩

/-- C2 amended: in the JSON format an unrepresentable value raises
`ValueError`, but the collection file has already been truncated and
rewritten up to the failure point, so it is not left unchanged; in the
binary format a pickling failure is reported by returning `False`, not by
raising. -/
theorem C2_amended (w old : String) :
    PersistenciaJSON.guardar_datos (DumpOutcome.failAfter w) (some old) =
      (Except.error PyErr.valueError, some w) ∧
    PersistenciaBinaria.guardar_datos (PickleOutcome.failAfter w) (some old) =
      (Except.ok false, some w) :=
  ⟨rfl, rfl⟩

/-- C4 counterexample: the automatic backup path names its file
`{collection}.{ext}_{timestamp}` — the claimed form
`{collection}_{timestamp}.{ext}` with the extension last does not match
what the code produces at a concrete instant. -/
theorem C4_counterexample :
    PersistenciaJSON.crearBackupRuta "usuarios" (FechaHora.mk 2024 1 2 3 4 5) ≠
      backupNameSpec "usuarios" "json" (FechaHora.mk 2024 1 2 3 4 5) ∧
    PersistenciaJSON.crearBackupRuta "usuarios" (FechaHora.mk 2024 1 2 3 4 5) =
      "data/backups/usuarios.json_20240102_030405" :=
  ⟨by decide, by decide⟩

/-- C4 amended: every automatic pre-overwrite backup lands in the backups
directory under `{collection}.{ext}_{YYYYMMDD_HHMMSS}`: the collection
basename, then the format's extension, then the one-second-granularity
timestamp last. -/
theorem C4_amended (base : String) (t : FechaHora) :
    PersistenciaJSON.crearBackupRuta base t =
      osPathJoin directorioBackups (base ++ ".json" ++ "_" ++ strftimeTimestamp t) ∧
    PersistenciaBinaria.crearBackupRuta base t =
      osPathJoin directorioBackups (base ++ ".pkl" ++ "_" ++ strftimeTimestamp t) ∧
    PersistenciaBinaria.crearBackupRuta "tareas" (FechaHora.mk 2024 1 2 3 4 5) =
      "data/backups/tareas.pkl_20240102_030405" :=
  ⟨rfl, rfl, by decide⟩

/-- C8: filtering with `filtro_compuesto A B` yields exactly the items
kept by both separate filters — successively filtering by `A` then `B`
gives the same list, membership coincides with the intersection of the
two separate filterings, and the result is a sublist of the input (so it
keeps the original relative order). -/
theorem C8_composicion (α : Type) (A B : α → Bool) (l : List α) :
    l.filter (filtro_compuesto [A, B]) = (l.filter A).filter B ∧
    (∀ x, x ∈ l.filter (filtro_compuesto [A, B]) ↔
      x ∈ l.filter A ∧ x ∈ l.filter B) ∧
    (l.filter (filtro_compuesto [A, B])).Sublist l := by
  have hf : filtro_compuesto [A, B] = fun a => A a && B a := by
    funext a
    simp [filtro_compuesto, List.all]
  refine ⟨?_, ?_, ?_⟩
  · rw [hf, List.filter_filter]
    simp [Bool.and_comm]
  · intro x
    rw [hf]
    simp only [List.mem_filter]
    constructor
    · rintro ⟨hx, hab⟩
      simp only [Bool.and_eq_true] at hab
      exact ⟨⟨hx, hab.1⟩, hx, hab.2⟩
    · rintro ⟨⟨hx, ha⟩, -, hb⟩
      exact ⟨hx, by simp [ha, hb]⟩
  · exact List.filter_sublist l

/-- C10: the empty composition is the identity filter — `filtro_compuesto`
applied to no filters accepts every item, and filtering any list with it
returns the list unchanged. -/
theorem C10_identidad (α : Type) (x : α) (l : List α) :
    filtro_compuesto ([] : List (α → Bool)) x = true ∧
    l.filter (filtro_compuesto ([] : List (α → Bool))) = l := by
  refine ⟨rfl, ?_⟩
  have hf : filtro_compuesto ([] : List (α → Bool)) = fun _ => true := by
    funext a
    rfl
  rw [hf]
  simp

/-- When every file removes cleanly, the pruning loop deletes exactly the
files older than the cutoff and adds their number to the running count. -/
theorem limpiarGo_all_removable (lim : Int) (archivos : List BackupFile) :
    ∀ n : Nat, (∀ f ∈ archivos, f.removable = true) →
      limpiarGo lim archivos n =
        (n + (archivos.filter fun f => decide (f.mtime < lim)).length,
         archivos.filter fun f => !decide (f.mtime < lim)) := by
  induction archivos with
  | nil => intro n _; simp [limpiarGo]
  | cons f resto ih =>
    intro n h
    have hf : f.removable = true := h f (List.mem_cons_self f resto)
    have hresto : ∀ g ∈ resto, g.removable = true :=
      fun g hg => h g (List.mem_cons_of_mem f hg)
    by_cases hm : f.mtime < lim
    · have hstep : limpiarGo lim (f :: resto) n = limpiarGo lim resto (n + 1) := by
        simp [limpiarGo, hm, hf]
      rw [hstep, ih (n + 1) hresto]
      simp [List.filter_cons, hm]
      omega
    · have hstep : limpiarGo lim (f :: resto) n =
          ((limpiarGo lim resto n).1, f :: (limpiarGo lim resto n).2) := by
        simp [limpiarGo, hm]
      rw [hstep, ih n hresto]
      simp [List.filter_cons, hm]

/-- A file that is old but cannot be removed makes the loop's exception
escape to the handler: already-scanned files keep their fate, the failing
file and everything after it stay, and the returned count is 0. -/
theorem limpiarGo_abort (lim : Int) (pre : List BackupFile) :
    ∀ (bad : BackupFile) (post : List BackupFile) (n : Nat),
      bad.mtime < lim → bad.removable = false →
      (∀ f ∈ pre, f.removable = true) →
      limpiarGo lim (pre ++ bad :: post) n =
        (0, (pre.filter fun f => !decide (f.mtime < lim)) ++ bad :: post) := by
  induction pre with
  | nil =>
    intro bad post n hm hr _
    simp [limpiarGo, if_pos hm, hr]
  | cons f resto ih =>
    intro bad post n hm hr h
    have hf : f.removable = true := h f (List.mem_cons_self f resto)
    have hresto : ∀ g ∈ resto, g.removable = true :=
      fun g hg => h g (List.mem_cons_of_mem f hg)
    by_cases hfm : f.mtime < lim
    · have hstep : limpiarGo lim ((f :: resto) ++ bad :: post) n =
          limpiarGo lim (resto ++ bad :: post) (n + 1) := by
        simp [limpiarGo, hfm, hf]
      rw [hstep, ih bad post (n + 1) hm hr hresto]
      simp [List.filter_cons, hfm]
    · have hstep : limpiarGo lim ((f :: resto) ++ bad :: post) n =
          ((limpiarGo lim (resto ++ bad :: post) n).1,
            f :: (limpiarGo lim (resto ++ bad :: post) n).2) := by
        simp [limpiarGo, hfm]
      rw [hstep, ih bad post n hm hr hresto]
      simp [List.filter_cons, hfm]

/-- C3 counterexample: with cutoff 5 and directory `[a, b, c]`, all three
older than the cutoff, where removing `b` fails: `a` is actually removed
(one file), yet the function returns 0, and `c` — though old and
removable — is not removed.  This contradicts both "a failure removing
one file does not prevent removal of the remaining files" and "returns
the count of files actually removed". -/
theorem C3_counterexample :
    GestorPersistencia.limpiar_backups_antiguos
        [BackupFile.mk "a" 0 true, BackupFile.mk "b" 0 false, BackupFile.mk "c" 0 true] 5 =
      (0, [BackupFile.mk "b" 0 false, BackupFile.mk "c" 0 true]) := by
  decide

/-- C3 amended: when every removal succeeds, pruning deletes exactly the
backup files whose modification time is older than the cutoff and
returns their count; but a failure removing one file aborts the scan —
the failing file and all files after it are left in place — and the
function returns 0 regardless of how many files it had already removed. -/
theorem C3_amended (lim : Int) (archivos : List BackupFile) :
    ((∀ f ∈ archivos, f.removable = true) →
      GestorPersistencia.limpiar_backups_antiguos archivos lim =
        ((archivos.filter fun f => decide (f.mtime < lim)).length,
         archivos.filter fun f => !decide (f.mtime < lim))) ∧
    (∀ pre bad post, archivos = pre ++ bad :: post →
      bad.mtime < lim → bad.removable = false →
      (∀ f ∈ pre, f.removable = true) →
      GestorPersistencia.limpiar_backups_antiguos archivos lim =
        (0, (pre.filter fun f => !decide (f.mtime < lim)) ++ bad :: post)) := by
  constructor
  · intro h
    have hgo := limpiarGo_all_removable lim archivos 0 h
    simpa [GestorPersistencia.limpiar_backups_antiguos] using hgo
  · intro pre bad post heq hm hr h
    subst heq
    exact limpiarGo_abort lim pre bad post 0 hm hr h

/-- Witness for C3 amended: a concrete two-file directory with no removal
failures prunes to exactly the old file's count. -/
theorem C3_amended_witness :
    GestorPersistencia.limpiar_backups_antiguos
        [BackupFile.mk "viejo" 0 true, BackupFile.mk "nuevo" 10 true] 5 =
      (([BackupFile.mk "viejo" 0 true, BackupFile.mk "nuevo" 10 true].filter
          fun f => decide (f.mtime < 5)).length,
        [BackupFile.mk "viejo" 0 true, BackupFile.mk "nuevo" 10 true].filter
          fun f => !decide (f.mtime < 5)) :=
  (C3_amended 5 [BackupFile.mk "viejo" 0 true, BackupFile.mk "nuevo" 10 true]).1
    (by decide)

/-- An advance yields the first remaining element accepted by the filter. -/
theorem buscarDesde_fst (α : Type) (filtro : Option (α → Bool)) (l : List α) :
    ∀ i : Nat, (buscarDesde filtro l i).1 =
      (l.filter fun t => aplicaFiltro filtro t).head? := by
  induction l with
  | nil => intro i; rfl
  | cons t resto ih =>
    intro i
    by_cases ht : aplicaFiltro filtro t = true
    · simp [buscarDesde, ht, List.filter_cons]
    · simp only [Bool.not_eq_true] at ht
      simp [buscarDesde, ht, List.filter_cons, ih (i + 1)]

/-- The cursor never moves backwards. -/
theorem buscarDesde_snd_ge (α : Type) (filtro : Option (α → Bool)) (l : List α) :
    ∀ i : Nat, i ≤ (buscarDesde filtro l i).2 := by
  induction l with
  | nil => intro i; exact Nat.le_refl i
  | cons t resto ih =>
    intro i
    by_cases ht : aplicaFiltro filtro t = true
    · simp [buscarDesde, ht]
    · simp only [Bool.not_eq_true] at ht
      simp only [buscarDesde, ht, Bool.false_eq_true, if_false]
      exact Nat.le_trans (Nat.le_succ i) (ih (i + 1))

/-- When the advance exhausts the source, the cursor ends past every
remaining element. -/
theorem buscarDesde_none_snd (α : Type) (filtro : Option (α → Bool)) (l : List α) :
    ∀ i : Nat, (buscarDesde filtro l i).1 = none →
      (buscarDesde filtro l i).2 = i + l.length := by
  induction l with
  | nil => intro i _; rfl
  | cons t resto ih =>
    intro i hnone
    by_cases ht : aplicaFiltro filtro t = true
    · simp [buscarDesde, ht] at hnone
    · simp only [Bool.not_eq_true] at ht
      simp only [buscarDesde, ht, Bool.false_eq_true, if_false] at hnone ⊢
      rw [ih (i + 1) hnone]
      simp [List.length_cons]
      omega

/-- C9: the lazy iterator is single-pass and forward-only — an advance
never moves the cursor backwards, never touches the wrapped list or
filter, yields exactly the first element at or after the cursor that the
filter accepts, and once it signals exhaustion (`none`, i.e.
`StopIteration`) every further advance of the same instance signals
exhaustion again without changing the instance. -/
theorem C9_iterador (α : Type) (it : IteradorTareas α) :
    it.indice ≤ (it.next).2.indice ∧
    (it.next).2.tareas = it.tareas ∧
    (it.next).2.filtro = it.filtro ∧
    (it.next).1 =
      ((it.tareas.drop it.indice).filter fun t => aplicaFiltro it.filtro t).head? ∧
    ((it.next).1 = none → (it.next).2.next = (none, (it.next).2)) := by
  refine ⟨?_, rfl, rfl, ?_, ?_⟩
  · exact buscarDesde_snd_ge α it.filtro (it.tareas.drop it.indice) it.indice
  · exact buscarDesde_fst α it.filtro (it.tareas.drop it.indice) it.indice
  · intro hnone
    have hsnd := buscarDesde_none_snd α it.filtro (it.tareas.drop it.indice)
      it.indice hnone
    have hdrop : it.tareas.drop
        ((buscarDesde it.filtro (it.tareas.drop it.indice) it.indice).2) = [] := by
      rw [hsnd]
      refine List.drop_eq_nil_of_le ?_
      rw [List.length_drop]
      omega
    show (IteradorTareas.next _) = _
    unfold IteradorTareas.next
    simp only at hdrop ⊢
    rw [hdrop]
    rfl

/-- Witness for C9: a concrete exhausted iterator keeps signalling
exhaustion without changing state. -/
theorem C9_iterador_witness :
    ((IteradorTareas.mk ([1] : List Nat) (some fun _ => false) 0).next).2.next =
      (none, ((IteradorTareas.mk ([1] : List Nat) (some fun _ => false) 0).next).2) :=
  (C9_iterador Nat (IteradorTareas.mk ([1] : List Nat) (some fun _ => false) 0)).2.2.2.2
    rfl

/-- One step of `find?` past a rejected element. -/
theorem find?_paso_neg (p : String × List Nat → Bool) (q : String × List Nat)
    (l : List (String × List Nat)) (h : p q = false) :
    (q :: l).find? p = l.find? p := by
  simp [List.find?, h]

/-- One step of `find?` at an accepted element. -/
theorem find?_paso_pos (p : String × List Nat → Bool) (q : String × List Nat)
    (l : List (String × List Nat)) (h : p q = true) :
    (q :: l).find? p = some q := by
  simp [List.find?, h]

/-- A listing with no `n`-entry has no `n`-match. -/
theorem find?_none_de_any (n : String) :
    ∀ dir : List (String × List Nat), dir.any (fun p => p.1 == n) = false →
      dir.find? (fun p => p.1 == n) = none := by
  intro dir
  induction dir with
  | nil => intro _; rfl
  | cons q resto ih =>
    intro h
    rw [List.any_cons] at h
    have hq : (q.1 == n) = false := by
      cases hqv : q.1 == n
      · rfl
      · rw [hqv] at h; simp at h
    have hr : resto.any (fun p => p.1 == n) = false := by
      cases hrv : resto.any fun p => p.1 == n
      · rfl
      · rw [hrv] at h; simp at h
    rw [find?_paso_neg _ q resto hq, ih hr]

/-- Replacing the entry named `n` leaves the first `n`-match equal to the
replacement. -/
theorem find?_map_replace (n : String) (d : List Nat) :
    ∀ dir : List (String × List Nat), dir.any (fun p => p.1 == n) = true →
      (dir.map fun p => if p.1 == n then (n, d) else p).find? (fun p => p.1 == n) =
        some (n, d) := by
  intro dir
  induction dir with
  | nil => intro h; simp at h
  | cons q resto ih =>
    intro h
    by_cases hq : (q.1 == n) = true
    · have hfq : (if q.1 == n then (n, d) else q) = (n, d) := by simp [hq]
      rw [List.map_cons, hfq, find?_paso_pos _ _ _ (by simp)]
    · have hq2 : (q.1 == n) = false := by simpa using hq
      have hfq : (if q.1 == n then (n, d) else q) = q := by simp [hq2]
      have hresto : resto.any (fun p => p.1 == n) = true := by
        rw [List.any_cons, hq2] at h
        simpa using h
      rw [List.map_cons, hfq, find?_paso_neg _ _ _ hq2, ih hresto]

/-- Appending a fresh entry named `n` makes it the first `n`-match. -/
theorem find?_append_fresh (n : String) (d : List Nat)
    (dir : List (String × List Nat)) (h : dir.any (fun p => p.1 == n) = false) :
    (dir ++ [(n, d)]).find? (fun p => p.1 == n) = some (n, d) := by
  rw [List.find?_append, find?_none_de_any n dir h, Option.none_or,
    find?_paso_pos _ _ _ (by simp)]

/-- After writing file `n`, reading `n` yields the written data. -/
theorem buscarArchivo_escribir_self (dir : List (String × List Nat)) (n : String)
    (d : List Nat) : buscarArchivo (escribirArchivo dir n d) n = some d := by
  unfold buscarArchivo escribirArchivo
  by_cases h : dir.any (fun p => p.1 == n) = true
  · rw [if_pos h, find?_map_replace n d dir h]
    rfl
  · have hfalse : dir.any (fun p => p.1 == n) = false := by
      cases hv : dir.any fun p => p.1 == n
      · rfl
      · exact absurd hv h
    rw [if_neg h, find?_append_fresh n d dir hfalse]
    rfl

/-- Replacing the entry named `m` does not change the first `n`-match for
`n ≠ m`. -/
theorem find?_map_replace_other (n m : String) (d : List Nat) (hnm : m ≠ n) :
    ∀ dir : List (String × List Nat),
      (dir.map fun p => if p.1 == m then (m, d) else p).find? (fun p => p.1 == n) =
        dir.find? (fun p => p.1 == n) := by
  intro dir
  induction dir with
  | nil => rfl
  | cons q resto ih =>
    by_cases hq : (q.1 == m) = true
    · have hq1 : q.1 = m := by simpa using hq
      have hfq : (if q.1 == m then (m, d) else q) = (m, d) := by simp [hq]
      have hqn : (q.1 == n) = false := by simp [hq1, hnm]
      have hmn : (((m, d) : String × List Nat).1 == n) = false := by simp [hnm]
      rw [List.map_cons, hfq, find?_paso_neg _ _ _ hmn, find?_paso_neg _ _ _ hqn, ih]
    · have hq2 : (q.1 == m) = false := by simpa using hq
      have hfq : (if q.1 == m then (m, d) else q) = q := by simp [hq2]
      rw [List.map_cons, hfq]
      by_cases hqn : (q.1 == n) = true
      · rw [find?_paso_pos _ _ _ hqn, find?_paso_pos _ _ _ hqn]
      · have hqn2 : (q.1 == n) = false := by simpa using hqn
        rw [find?_paso_neg _ _ _ hqn2, find?_paso_neg _ _ _ hqn2, ih]

/-- Appending an entry named `m` does not change the first `n`-match for
`n ≠ m`. -/
theorem find?_append_other (n m : String) (d : List Nat)
    (dir : List (String × List Nat)) (hnm : m ≠ n) :
    (dir ++ [(m, d)]).find? (fun p => p.1 == n) = dir.find? (fun p => p.1 == n) := by
  rw [List.find?_append]
  have hone : ([(m, d)].find? fun p => p.1 == n) = none := by
    rw [find?_paso_neg _ _ _ (by simp [hnm])]
    rfl
  rw [hone]
  cases dir.find? fun p => p.1 == n <;> rfl

/-- After writing file `m`, reading a different name `n` is unchanged. -/
theorem buscarArchivo_escribir_other (dir : List (String × List Nat)) (n m : String)
    (d : List Nat) (hnm : m ≠ n) :
    buscarArchivo (escribirArchivo dir m d) n = buscarArchivo dir n := by
  unfold buscarArchivo escribirArchivo
  by_cases h : dir.any (fun p => p.1 == m) = true
  · rw [if_pos h, find?_map_replace_other n m d hnm dir]
  · rw [if_neg h, find?_append_other n m d dir hnm]

/-- The sync step never touches the JSON listing, whatever the
collection's state. -/
theorem guardarSync_json (ts : String) (s : AlmacenFS) (archivo destino : String) :
    (guardarSync ts s archivo destino).json = s.json := by
  unfold guardarSync
  rcases buscarArchivo s.json archivo with - | l
  · rfl
  · by_cases hl : l.isEmpty
    · simp [hl]
    · by_cases hb : (buscarArchivo s.binario destino).isSome = true <;>
        simp [hl, hb]

/-- When the sync target does not exist, there is nothing to back up and
the backups listing is unchanged. -/
theorem guardarSync_backups_none (ts : String) (s : AlmacenFS)
    (archivo destino : String) (hb : buscarArchivo s.binario destino = none) :
    (guardarSync ts s archivo destino).backups = s.backups := by
  unfold guardarSync
  rcases buscarArchivo s.json archivo with - | l
  · rfl
  · by_cases hl : l.isEmpty
    · simp [hl]
    · simp [hl, hb]

/-- When the collection is truthy and the sync target already exists, the
target is copied into the backups listing under its timestamped name
before being overwritten. -/
theorem guardarSync_backups_respaldo (ts : String) (s : AlmacenFS)
    (archivo destino : String) (l : List Nat)
    (h : buscarArchivo s.json archivo = some l) (hl : l ≠ [])
    (hb : (buscarArchivo s.binario destino).isSome = true) :
    (guardarSync ts s archivo destino).backups =
      s.backups ++ [destino ++ "_" ++ ts] := by
  unfold guardarSync
  rw [h]
  have hle : l.isEmpty = false := by simp [List.isEmpty_iff, hl]
  simp [hle, hb]

/-- A sync step either leaves the backups listing alone or appends one
timestamped backup entry for its own target. -/
theorem guardarSync_backups_cases (ts : String) (s : AlmacenFS)
    (archivo destino : String) :
    (guardarSync ts s archivo destino).backups = s.backups ∨
    (guardarSync ts s archivo destino).backups =
      s.backups ++ [destino ++ "_" ++ ts] := by
  unfold guardarSync
  rcases buscarArchivo s.json archivo with - | l
  · exact Or.inl rfl
  · by_cases hl : l.isEmpty
    · simp [hl]
    · by_cases hb : (buscarArchivo s.binario destino).isSome = true
      · right
        simp [hl, hb]
      · left
        simp [hl, hb]

/-- When the collection is present and nonempty, the sync step writes its
data under `destino` in the binary listing. -/
theorem guardarSync_escribe (ts : String) (s : AlmacenFS) (archivo destino : String)
    (l : List Nat) (h : buscarArchivo s.json archivo = some l) (hl : l ≠ []) :
    buscarArchivo (guardarSync ts s archivo destino).binario destino = some l := by
  unfold guardarSync
  rw [h]
  have hle : l.isEmpty = false := by simp [List.isEmpty_iff, hl]
  by_cases hb : (buscarArchivo s.binario destino).isSome = true
  · simp only [hle, Bool.false_eq_true, if_false, if_pos hb]
    exact buscarArchivo_escribir_self s.binario destino l
  · simp only [hle, Bool.false_eq_true, if_false, if_neg hb]
    exact buscarArchivo_escribir_self s.binario destino l

/-- A sync step leaves binary files with other names unchanged. -/
theorem guardarSync_otro (ts : String) (s : AlmacenFS) (archivo destino n : String)
    (hn : destino ≠ n) :
    buscarArchivo (guardarSync ts s archivo destino).binario n =
      buscarArchivo s.binario n := by
  unfold guardarSync
  rcases buscarArchivo s.json archivo with - | l
  · rfl
  · by_cases hl : l.isEmpty
    · simp [hl]
    · by_cases hb : (buscarArchivo s.binario destino).isSome = true
      · simp only [hl, Bool.false_eq_true, if_false, if_pos hb]
        exact buscarArchivo_escribir_other s.binario n destino l hn
      · simp only [hl, Bool.false_eq_true, if_false, if_neg hb]
        exact buscarArchivo_escribir_other s.binario n destino l hn

/-- C6 counterexample: with an empty JSON store and a populated binary
store, `sincronizar_formatos` reports success and changes nothing — in
particular the binary `usuarios` collection is **not** copied into the
structured store, contradicting the claimed opaque-to-structured
direction. -/
theorem C6_counterexample :
    GestorPersistencia.sincronizar_formatos "20240102_030405"
        (AlmacenFS.mk [] [("usuarios.pkl", [5])] []) =
      (true, AlmacenFS.mk [] [("usuarios.pkl", [5])] []) ∧
    (GestorPersistencia.sincronizar_formatos "20240102_030405"
        (AlmacenFS.mk [] [("usuarios.pkl", [5])] [])).2.json = [] := by
  exact ⟨by decide, by decide⟩

/-- C6 amended: `sincronizar_formatos` is a best-effort one-way copy — it
reports success, copies each JSON collection that is present and nonempty
into the binary store under `{collection}_sync.pkl`, attempting a
timestamped backup of each sync target it is about to overwrite (so the
backups listing is unchanged exactly when no sync target pre-exists, and
gains the overwritten target's timestamped entry when one does), and it
never writes in the opposite direction: the JSON listing is left
unchanged. -/
theorem C6_amended (ts : String) (s : AlmacenFS) (u t : List Nat) :
    (GestorPersistencia.sincronizar_formatos ts s).1 = true ∧
    (GestorPersistencia.sincronizar_formatos ts s).2.json = s.json ∧
    (buscarArchivo s.json "usuarios.json" = some u → u ≠ [] →
      buscarArchivo (GestorPersistencia.sincronizar_formatos ts s).2.binario
        "usuarios_sync.pkl" = some u) ∧
    (buscarArchivo s.json "tareas.json" = some t → t ≠ [] →
      buscarArchivo (GestorPersistencia.sincronizar_formatos ts s).2.binario
        "tareas_sync.pkl" = some t) ∧
    (buscarArchivo s.binario "usuarios_sync.pkl" = none →
      buscarArchivo s.binario "tareas_sync.pkl" = none →
      (GestorPersistencia.sincronizar_formatos ts s).2.backups = s.backups) ∧
    (buscarArchivo s.json "usuarios.json" = some u → u ≠ [] →
      (buscarArchivo s.binario "usuarios_sync.pkl").isSome = true →
      "usuarios_sync.pkl" ++ "_" ++ ts ∈
        (GestorPersistencia.sincronizar_formatos ts s).2.backups) ∧
    (buscarArchivo s.json "tareas.json" = some t → t ≠ [] →
      (buscarArchivo s.binario "tareas_sync.pkl").isSome = true →
      "tareas_sync.pkl" ++ "_" ++ ts ∈
        (GestorPersistencia.sincronizar_formatos ts s).2.backups) := by
  have hjson1 : (guardarSync ts s "usuarios.json" "usuarios_sync.pkl").json =
      s.json := guardarSync_json ts s "usuarios.json" "usuarios_sync.pkl"
  have hbin1 : buscarArchivo
      (guardarSync ts s "usuarios.json" "usuarios_sync.pkl").binario
      "tareas_sync.pkl" = buscarArchivo s.binario "tareas_sync.pkl" :=
    guardarSync_otro ts s "usuarios.json" "usuarios_sync.pkl" "tareas_sync.pkl"
      (by decide)
  refine ⟨rfl, ?_, ?_, ?_, ?_, ?_, ?_⟩
  · exact (guardarSync_json ts
      (guardarSync ts s "usuarios.json" "usuarios_sync.pkl")
      "tareas.json" "tareas_sync.pkl").trans hjson1
  · intro hu hu0
    have hfirst := guardarSync_escribe ts s "usuarios.json" "usuarios_sync.pkl"
      u hu hu0
    have hkeep := guardarSync_otro ts
      (guardarSync ts s "usuarios.json" "usuarios_sync.pkl")
      "tareas.json" "tareas_sync.pkl" "usuarios_sync.pkl" (by decide)
    exact hkeep.trans hfirst
  · intro ht ht0
    have ht1 : buscarArchivo
        (guardarSync ts s "usuarios.json" "usuarios_sync.pkl").json "tareas.json" =
        some t := by
      rw [hjson1]
      exact ht
    exact guardarSync_escribe ts
      (guardarSync ts s "usuarios.json" "usuarios_sync.pkl")
      "tareas.json" "tareas_sync.pkl" t ht1 ht0
  · intro hbu hbt
    have hback1 := guardarSync_backups_none ts s "usuarios.json" "usuarios_sync.pkl"
      hbu
    have hbt1 : buscarArchivo
        (guardarSync ts s "usuarios.json" "usuarios_sync.pkl").binario
        "tareas_sync.pkl" = none := hbin1.trans hbt
    have hback2 := guardarSync_backups_none ts
      (guardarSync ts s "usuarios.json" "usuarios_sync.pkl")
      "tareas.json" "tareas_sync.pkl" hbt1
    exact hback2.trans hback1
  · intro hu hu0 hbu
    have hback1 := guardarSync_backups_respaldo ts s "usuarios.json"
      "usuarios_sync.pkl" u hu hu0 hbu
    have hmem1 : "usuarios_sync.pkl" ++ "_" ++ ts ∈
        (guardarSync ts s "usuarios.json" "usuarios_sync.pkl").backups := by
      rw [hback1]
      exact List.mem_append_right _ (by simp)
    show "usuarios_sync.pkl" ++ "_" ++ ts ∈
      (guardarSync ts (guardarSync ts s "usuarios.json" "usuarios_sync.pkl")
        "tareas.json" "tareas_sync.pkl").backups
    rcases guardarSync_backups_cases ts
        (guardarSync ts s "usuarios.json" "usuarios_sync.pkl")
        "tareas.json" "tareas_sync.pkl" with hc | hc
    · rw [hc]
      exact hmem1
    · rw [hc]
      exact List.mem_append_left _ hmem1
  · intro ht ht0 hbt
    have ht1 : buscarArchivo
        (guardarSync ts s "usuarios.json" "usuarios_sync.pkl").json "tareas.json" =
        some t := by
      rw [hjson1]
      exact ht
    have hbt1 : (buscarArchivo
        (guardarSync ts s "usuarios.json" "usuarios_sync.pkl").binario
        "tareas_sync.pkl").isSome = true := by
      rw [hbin1]
      exact hbt
    have hback2 := guardarSync_backups_respaldo ts
      (guardarSync ts s "usuarios.json" "usuarios_sync.pkl")
      "tareas.json" "tareas_sync.pkl" t ht1 ht0 hbt1
    show "tareas_sync.pkl" ++ "_" ++ ts ∈
      (guardarSync ts (guardarSync ts s "usuarios.json" "usuarios_sync.pkl")
        "tareas.json" "tareas_sync.pkl").backups
    rw [hback2]
    exact List.mem_append_right _ (by simp)

/-- Witness for C6 amended: a concrete store whose `usuarios_sync.pkl`
target already exists records a timestamped backup entry of it during
synchronization. -/
theorem C6_amended_witness :
    "usuarios_sync.pkl" ++ "_" ++ "20240102_030405" ∈
      (GestorPersistencia.sincronizar_formatos "20240102_030405"
        (AlmacenFS.mk [("usuarios.json", [1]), ("tareas.json", [2])]
          [("usuarios_sync.pkl", [9])] [])).2.backups :=
  (C6_amended "20240102_030405"
    (AlmacenFS.mk [("usuarios.json", [1]), ("tareas.json", [2])]
      [("usuarios_sync.pkl", [9])] [])
    [1] [2]).2.2.2.2.2.1 (by decide) (by decide) (by decide)

/-- Writing a file whose name is not yet listed appends it. -/
theorem escribirArchivo_fresh (dir : List (String × List Nat)) (n : String)
    (d : List Nat) (h : ∀ p ∈ dir, p.1 ≠ n) :
    escribirArchivo dir n d = dir ++ [(n, d)] := by
  have hany : dir.any (fun p => p.1 == n) = false := by
    cases hv : dir.any fun p => p.1 == n
    · rfl
    · rw [List.any_eq_true] at hv
      obtain ⟨x, hx, hpx⟩ := hv
      have hx1 : x.1 = n := by simpa using hpx
      exact absurd hx1 (h x hx)
  have hcond : ¬(dir.any (fun p => p.1 == n) = true) := by
    rw [hany]
    exact Bool.false_ne_true
  unfold escribirArchivo
  rw [if_neg hcond]

/-- The backup step touches neither the binary listing nor the backups
listing. -/
theorem guardarRespaldoJson_shape (s : AlmacenFS) (archivo destino : String) :
    (guardarRespaldoJson s archivo destino).binario = s.binario ∧
    (guardarRespaldoJson s archivo destino).backups = s.backups := by
  unfold guardarRespaldoJson
  rcases buscarArchivo s.json archivo with - | l
  · exact ⟨rfl, rfl⟩
  · by_cases hl : l.isEmpty <;> simp [hl]

/-- A backup step with the collection present and nonempty, writing under
a fresh name, appends one JSON file. -/
theorem guardarRespaldoJson_eq (s : AlmacenFS) (archivo destino : String)
    (l : List Nat) (h : buscarArchivo s.json archivo = some l) (hl : l ≠ [])
    (hfresh : ∀ p ∈ s.json, p.1 ≠ destino) :
    guardarRespaldoJson s archivo destino =
      { s with json := s.json ++ [(destino, l)] } := by
  unfold guardarRespaldoJson
  rw [h]
  have hle : l.isEmpty = false := by simp [List.isEmpty_iff, hl]
  simp only [hle, Bool.false_eq_true, if_false]
  rw [escribirArchivo_fresh s.json destino l hfresh]

/-- A name found in a listing is still the first match after appending. -/
theorem buscarArchivo_append_of_found (dir : List (String × List Nat)) (n : String)
    (l2 : List (String × List Nat)) (v : List Nat)
    (h : buscarArchivo dir n = some v) :
    buscarArchivo (dir ++ l2) n = some v := by
  unfold buscarArchivo at h ⊢
  rw [List.find?_append]
  rcases hf : dir.find? fun p => p.1 == n with - | q
  · rw [hf] at h
    simp at h
  · rw [hf] at h
    rw [hf]
    exact h

/-- `str.endswith` holds for a direct extension concatenation. -/
theorem tieneExtension_append (x s : String) : tieneExtension (x ++ s) s = true := by
  unfold tieneExtension
  rw [String.data_append]
  simp [List.isSuffixOf_iff_suffix]

/-- `str.endswith` holds when the extension ends a three-part
concatenation (as in `f"{nombre}_backup_{ts}" + ".json"`). -/
theorem tieneExtension_concat (x y s : String) :
    tieneExtension (x ++ (y ++ s)) s = true := by
  unfold tieneExtension
  rw [String.data_append, String.data_append]
  have hsuf : s.data <:+ (x.data ++ y.data) ++ s.data := List.suffix_append _ _
  rw [List.append_assoc] at hsuf
  simpa [List.isSuffixOf_iff_suffix] using hsuf

/-- The two snapshot names of one full backup differ (their lengths
differ). -/
theorem nombres_backup_ne (ts : String) :
    ("usuarios_backup_" ++ ts ++ ".json") ≠ ("tareas_backup_" ++ ts ++ ".json") := by
  intro h
  have h2 := congrArg String.length h
  rw [String.length_append, String.length_append, String.length_append,
    String.length_append] at h2
  have e1 : ("usuarios_backup_" : String).length = 16 := rfl
  have e2 : ("tareas_backup_" : String).length = 14 := rfl
  omega

/-- C5 counterexample: starting from a store holding both collections and
an empty backups directory, the full backup reports success, yet the
statistics backup counter still reads 0 afterwards — not 2 — because the
snapshots were written into the JSON data directory, which the backup
counter does not count. -/
theorem C5_counterexample :
    (GestorPersistencia.crear_backup "20240102_030405"
        (AlmacenFS.mk [("usuarios.json", [1]), ("tareas.json", [2])] [] [])).1 =
      true ∧
    (GestorPersistencia.obtener_estadisticas_almacenamiento
        (GestorPersistencia.crear_backup "20240102_030405"
          (AlmacenFS.mk [("usuarios.json", [1]), ("tareas.json", [2])] [] [])).2).backupsTotales =
      0 := by
  exact ⟨by decide, by decide⟩

/-- C5 amended: when both collections are present and nonempty and the
timestamped snapshot names are fresh, `crear_backup` reports success and
writes both snapshots as files of the **JSON data directory**; the
statistics backup counter (which counts only the backups directory) is
unchanged, while the JSON file count grows by exactly 2. -/
theorem C5_amended (s : AlmacenFS) (ts : String) (u t : List Nat)
    (hu : buscarArchivo s.json "usuarios.json" = some u) (hu0 : u ≠ [])
    (ht : buscarArchivo s.json "tareas.json" = some t) (ht0 : t ≠ [])
    (hf1 : ∀ p ∈ s.json, p.1 ≠ "usuarios_backup_" ++ ts ++ ".json")
    (hf2 : ∀ p ∈ s.json, p.1 ≠ "tareas_backup_" ++ ts ++ ".json") :
    (GestorPersistencia.crear_backup ts s).1 = true ∧
    (GestorPersistencia.crear_backup ts s).2.backups = s.backups ∧
    (GestorPersistencia.obtener_estadisticas_almacenamiento
        (GestorPersistencia.crear_backup ts s).2).backupsTotales =
      (GestorPersistencia.obtener_estadisticas_almacenamiento s).backupsTotales ∧
    (GestorPersistencia.obtener_estadisticas_almacenamiento
        (GestorPersistencia.crear_backup ts s).2).archivosJson =
      (GestorPersistencia.obtener_estadisticas_almacenamiento s).archivosJson + 2 := by
  have h1 := guardarRespaldoJson_eq s "usuarios.json"
    ("usuarios_backup_" ++ ts ++ ".json") u hu hu0 hf1
  have hjson1 : (guardarRespaldoJson s "usuarios.json"
      ("usuarios_backup_" ++ ts ++ ".json")).json =
      s.json ++ [("usuarios_backup_" ++ ts ++ ".json", u)] := by
    rw [h1]
  have ht1 : buscarArchivo (guardarRespaldoJson s "usuarios.json"
      ("usuarios_backup_" ++ ts ++ ".json")).json "tareas.json" = some t := by
    rw [hjson1]
    exact buscarArchivo_append_of_found s.json "tareas.json"
      [("usuarios_backup_" ++ ts ++ ".json", u)] t ht
  have hfresh2 : ∀ p ∈ (guardarRespaldoJson s "usuarios.json"
      ("usuarios_backup_" ++ ts ++ ".json")).json,
      p.1 ≠ "tareas_backup_" ++ ts ++ ".json" := by
    rw [hjson1]
    intro p hp
    rcases List.mem_append.mp hp with hp | hp
    · exact hf2 p hp
    · have hpe : p = ("usuarios_backup_" ++ ts ++ ".json", u) := by simpa using hp
      rw [hpe]
      exact nombres_backup_ne ts
  have h2 := guardarRespaldoJson_eq
    (guardarRespaldoJson s "usuarios.json" ("usuarios_backup_" ++ ts ++ ".json"))
    "tareas.json" ("tareas_backup_" ++ ts ++ ".json") t ht1 ht0 hfresh2
  have hfinal : GestorPersistencia.crear_backup ts s =
      (true, { s with json := (s.json ++ [("usuarios_backup_" ++ ts ++ ".json", u)]) ++
        [("tareas_backup_" ++ ts ++ ".json", t)] }) := by
    unfold GestorPersistencia.crear_backup
    rw [h2, h1]
  have he1 : tieneExtension ("usuarios_backup_" ++ ts ++ ".json") ".json" = true :=
    tieneExtension_concat "usuarios_backup_" ts ".json"
  have he2 : tieneExtension ("tareas_backup_" ++ ts ++ ".json") ".json" = true :=
    tieneExtension_concat "tareas_backup_" ts ".json"
  refine ⟨?_, ?_, ?_, ?_⟩
  · rw [hfinal]
  · rw [hfinal]
  · rw [hfinal]
    rfl
  · rw [hfinal]
    unfold GestorPersistencia.obtener_estadisticas_almacenamiento
    simp only [List.filter_append, List.length_append, List.filter_cons, he1, he2,
      if_true, List.filter_nil, List.length_cons, List.length_nil]

/-- Witness for C5 amended: a concrete two-collection store gains exactly
two JSON files from one full backup. -/
theorem C5_amended_witness :
    (GestorPersistencia.obtener_estadisticas_almacenamiento
        (GestorPersistencia.crear_backup "20240102_030405"
          (AlmacenFS.mk [("usuarios.json", [1]), ("tareas.json", [2])] [] [])).2).archivosJson =
      (GestorPersistencia.obtener_estadisticas_almacenamiento
        (AlmacenFS.mk [("usuarios.json", [1]), ("tareas.json", [2])] [] [])).archivosJson + 2 :=
  (C5_amended (AlmacenFS.mk [("usuarios.json", [1]), ("tareas.json", [2])] [] [])
    "20240102_030405" [1] [2] (by decide) (by decide) (by decide) (by decide)
    (by decide) (by decide)).2.2.2

/-- Windowing an empty list yields no windows, whatever the fuel. -/
theorem lotesAux_nil (α : Type) (tam : Nat) :
    ∀ fuel : Nat, lotesAux tam fuel ([] : List α) = [] := by
  intro fuel
  cases fuel <;> rfl

/-- The windows concatenate back to the input list. -/
theorem lotesAux_flatten (α : Type) (tam : Nat) (htam : 0 < tam) :
    ∀ (fuel : Nat) (l : List α), l.length ≤ fuel →
      (lotesAux tam fuel l).flatten = l := by
  intro fuel
  induction fuel with
  | zero =>
    intro l hl
    have hnil : l = [] := List.length_eq_zero.mp (Nat.le_zero.mp hl)
    rw [hnil]
    rfl
  | succ fuel ih =>
    intro l hl
    cases l with
    | nil => rfl
    | cons x xs =>
      have hlen : ((x :: xs).drop tam).length ≤ fuel := by
        rw [List.length_drop]
        simp only [List.length_cons] at hl ⊢
        omega
      show (List.take tam (x :: xs) ::
        lotesAux tam fuel (List.drop tam (x :: xs))).flatten = x :: xs
      rw [List.flatten_cons, ih (List.drop tam (x :: xs)) hlen,
        List.take_append_drop]

/-- Every window is nonempty and no longer than the window size. -/
theorem lotesAux_mem_length (α : Type) (tam : Nat) (htam : 0 < tam) :
    ∀ (fuel : Nat) (l : List α), l.length ≤ fuel →
      ∀ lote ∈ lotesAux tam fuel l, 1 ≤ lote.length ∧ lote.length ≤ tam := by
  intro fuel
  induction fuel with
  | zero =>
    intro l hl lote hlote
    have hnil : l = [] := List.length_eq_zero.mp (Nat.le_zero.mp hl)
    rw [hnil, lotesAux_nil] at hlote
    simp at hlote
  | succ fuel ih =>
    intro l hl lote hlote
    cases l with
    | nil =>
      rw [lotesAux_nil] at hlote
      simp at hlote
    | cons x xs =>
      have hlen : ((x :: xs).drop tam).length ≤ fuel := by
        rw [List.length_drop]
        simp only [List.length_cons] at hl ⊢
        omega
      rw [show lotesAux tam (fuel + 1) (x :: xs) =
        List.take tam (x :: xs) :: lotesAux tam fuel (List.drop tam (x :: xs))
        from rfl] at hlote
      rcases List.mem_cons.mp hlote with h | h
      · rw [h, List.length_take]
        simp only [List.length_cons]
        omega
      · exact ih (List.drop tam (x :: xs)) hlen lote h

/-- Every window except possibly the last has exactly the window size. -/
theorem lotesAux_dropLast (α : Type) (tam : Nat) (htam : 0 < tam) :
    ∀ (fuel : Nat) (l : List α), l.length ≤ fuel →
      ∀ lote ∈ (lotesAux tam fuel l).dropLast, lote.length = tam := by
  intro fuel
  induction fuel with
  | zero =>
    intro l hl lote hlote
    have hnil : l = [] := List.length_eq_zero.mp (Nat.le_zero.mp hl)
    rw [hnil, lotesAux_nil] at hlote
    simp at hlote
  | succ fuel ih =>
    intro l hl lote hlote
    cases l with
    | nil =>
      rw [lotesAux_nil] at hlote
      simp at hlote
    | cons x xs =>
      have hlen : ((x :: xs).drop tam).length ≤ fuel := by
        rw [List.length_drop]
        simp only [List.length_cons] at hl ⊢
        omega
      rw [show lotesAux tam (fuel + 1) (x :: xs) =
        List.take tam (x :: xs) :: lotesAux tam fuel (List.drop tam (x :: xs))
        from rfl] at hlote
      cases hrest : lotesAux tam fuel (List.drop tam (x :: xs)) with
      | nil =>
        rw [hrest] at hlote
        simp at hlote
      | cons r rs =>
        have hdrop_ne : List.drop tam (x :: xs) ≠ [] := by
          intro hd
          rw [hd, lotesAux_nil] at hrest
          exact (List.cons_ne_nil r rs) hrest.symm
        have hlong : tam < (x :: xs).length := by
          by_contra hcon
          exact hdrop_ne (List.drop_eq_nil_of_le (Nat.le_of_not_lt hcon))
        rw [hrest, List.dropLast_cons_of_ne_nil (List.cons_ne_nil r rs)] at hlote
        rcases List.mem_cons.mp hlote with h | h
        · rw [h, List.length_take]
          omega
        · rw [← hrest] at h
          exact ih (List.drop tam (x :: xs)) hlen lote h

/-- The windows of `lotes` concatenate back to the input. -/
theorem lotes_flatten (α : Type) (tam : Nat) (htam : 0 < tam) (l : List α) :
    (lotes tam l).flatten = l := by
  unfold lotes
  rw [if_neg (Nat.pos_iff_ne_zero.mp htam)]
  exact lotesAux_flatten α tam htam l.length l (Nat.le_refl _)

/-- The window statistics at index `k` are the statistics of window `k`. -/
theorem generador_getElem (tareas : List EstadoTarea) (tam k : Nat) :
    (generador_estadisticas_por_lote tareas tam)[k]? =
      ((lotes tam tareas)[k]?).map
        fun lote => estadisticasLote (k * tam) tam tareas.length lote := by
  unfold generador_estadisticas_por_lote
  rw [List.getElem?_map, List.enum_eq_enumFrom, List.getElem?_enumFrom]
  cases (lotes tam tareas)[k]? <;> simp

/-- The per-window totals sum to the input length. -/
theorem generador_sum_total (tareas : List EstadoTarea) (tam : Nat) (htam : 0 < tam) :
    ((generador_estadisticas_por_lote tareas tam).map
      fun st => st.totalTareas).sum = tareas.length := by
  unfold generador_estadisticas_por_lote
  rw [List.map_map]
  rw [show ((fun st => st.totalTareas) ∘
      fun p : Nat × List EstadoTarea =>
        estadisticasLote (p.1 * tam) tam tareas.length p.2) =
    (List.length ∘ Prod.snd : Nat × List EstadoTarea → Nat) from rfl]
  rw [← List.map_map, List.enum_eq_enumFrom, List.enumFrom_map_snd,
    ← List.length_flatten, lotes_flatten EstadoTarea tam htam]

/-- C7: for every window size `w ≥ 1` the windowed-batch generator
partitions the input into consecutive windows — they concatenate back to
the input, every window is nonempty and at most `w` long, every window
but the last is exactly `w` long — the per-window totals sum to the input
length, the record at index `k` is computed from window `k` alone (its
total, per-state count and percentage are functions of that window's
contents only), and 25 items with `w = 10` produce windows of sizes
10, 10, 5. -/
theorem C7_lotes (tareas : List EstadoTarea) (tam : Nat) (htam : 1 ≤ tam) :
    (lotes tam tareas).flatten = tareas ∧
    (∀ lote ∈ lotes tam tareas, 1 ≤ lote.length ∧ lote.length ≤ tam) ∧
    (∀ lote ∈ (lotes tam tareas).dropLast, lote.length = tam) ∧
    ((generador_estadisticas_por_lote tareas tam).map
      fun st => st.totalTareas).sum = tareas.length ∧
    (∀ k : Nat, (generador_estadisticas_por_lote tareas tam)[k]? =
      ((lotes tam tareas)[k]?).map
        fun lote => estadisticasLote (k * tam) tam tareas.length lote) ∧
    (∀ (k : Nat) (st : EstadisticasLote),
      (generador_estadisticas_por_lote tareas tam)[k]? = some st →
      ∃ lote, (lotes tam tareas)[k]? = some lote ∧
        st.totalTareas = lote.length ∧
        st.completadas = (lote.filter fun x => x == EstadoTarea.completada).length ∧
        st.porcentajeCompletadas =
          (if 0 < lote.length then
            ((lote.filter fun x => x == EstadoTarea.completada).length : ℚ) /
              (lote.length : ℚ) * 100
          else 0)) ∧
    (generador_estadisticas_por_lote (List.replicate 25 EstadoTarea.pendiente) 10).map
      (fun st => st.totalTareas) = [10, 10, 5] := by
  have h0 : 0 < tam := htam
  refine ⟨lotes_flatten EstadoTarea tam h0 tareas, ?_, ?_,
    generador_sum_total tareas tam h0, generador_getElem tareas tam, ?_, by decide⟩
  · intro lote hlote
    unfold lotes at hlote
    rw [if_neg (Nat.pos_iff_ne_zero.mp h0)] at hlote
    exact lotesAux_mem_length EstadoTarea tam h0 tareas.length tareas
      (Nat.le_refl _) lote hlote
  · intro lote hlote
    unfold lotes at hlote
    rw [if_neg (Nat.pos_iff_ne_zero.mp h0)] at hlote
    exact lotesAux_dropLast EstadoTarea tam h0 tareas.length tareas
      (Nat.le_refl _) lote hlote
  · intro k st hst
    rw [generador_getElem tareas tam k] at hst
    rcases hl : (lotes tam tareas)[k]? with - | lote
    · rw [hl] at hst
      simp at hst
    · rw [hl] at hst
      simp only [Option.map_some'] at hst
      have hst2 : estadisticasLote (k * tam) tam tareas.length lote = st :=
        Option.some.inj hst
      subst hst2
      exact ⟨lote, rfl, rfl, rfl, rfl⟩

/-- Witness for C7: the concrete 25-item example partitions back to
itself with window size 10. -/
theorem C7_lotes_witness :
    (lotes 10 (List.replicate 25 EstadoTarea.pendiente)).flatten =
      List.replicate 25 EstadoTarea.pendiente :=
  (C7_lotes (List.replicate 25 EstadoTarea.pendiente) 10 (by decide)).1

end GestorTareas
